import Mathlib

/-!
# Verification of the Rosekey structured logger

Shallow embedding of `Logger` (packages/backend/src/logger.ts, shown in the
repository excerpt) and proofs about its behaviour: hierarchical context
chaining, the quiet/debug gates, console formatting, and forwarding to the
cloud-logging sink.

Styled terminal text (chalk) is modelled by the inductive `SText`, which keeps
the styling structure so that `stripAnsi` becomes the function `SText.strip`.
JavaScript objects (`Record<string, any>`) are modelled by the mutual
inductives `JsVal`/`Fields`; object identity (needed for the in-place mutation
performed by `Logger.error`) is modelled by a heap, a list of `Fields`
addressed by position.
-/

namespace Rosekey

/-- Styled console text: `plain` is a raw string, `styled sty t` is a chalk
style (named by the chalk call chain, e.g. "red", "bgRed.white", "bold",
"rgb.<keyword>") applied to `t`, and `app` is string concatenation of two
styled fragments (template-literal interpolation). -/
inductive SText where
  | plain (s : String)
  | styled (sty : String) (t : SText)
  | app (a b : SText)
deriving Repr, DecidableEq

/-- `stripAnsi`: drop all styling, keep the text. -/
def SText.strip : SText → String
  | .plain s => s
  | .styled _ t => t.strip
  | .app a b => a.strip ++ b.strip

mutual
/-- JavaScript values appearing in the logger data bags. `errV name message`
models an `Error` instance. -/
inductive JsVal where
  | str (s : String)
  | errV (name message : String)
  | obj (fields : Fields)
deriving DecidableEq
/-- Object field lists (insertion-ordered, as in a JS object). -/
inductive Fields where
  | nil
  | cons (key : String) (val : JsVal) (rest : Fields)
deriving DecidableEq
end

/-- JS property read `o[k]`. -/
def Fields.lookup : Fields → String → Option JsVal
  | .nil, _ => none
  | .cons k v rest, key => if k = key then some v else rest.lookup key

/-- JS property write `o[k] = v`: replace in place if the key exists
(keeping its position), else append (insertion order). -/
def Fields.set : Fields → String → JsVal → Fields
  | .nil, key, v => .cons key v .nil
  | .cons k w rest, key, v =>
      if k = key then .cons key v rest else .cons k w (rest.set key v)

/-- `Error.prototype.toString()`: `name + ": " + message`, degenerating
gracefully when either part is empty. -/
def errToString (name message : String) : String :=
  if message = "" then name
  else if name = "" then message
  else name ++ ": " ++ message

/-- String coercion `${v}` of a JS value. -/
def jsToString : JsVal → String
  | .str s => s
  | .errV n m => errToString n m
  | .obj _ => "[object Object]"

mutual
/-- Models `util.inspect(data, { depth: null })` on a value: a deeply-expanded
human-readable rendering (the exact concrete syntax of `util.inspect` is
richer; what matters to the logger is that it is a pure serialization of the
whole structure). -/
def inspectVal : JsVal → String
  | .str s => "\x27" ++ s ++ "\x27"
  | .errV n m => errToString n m
  | .obj f => inspectFields f
/-- `util.inspect` of a whole object. -/
def inspectFields : Fields → String
  | .nil => "\x7b\x7d"
  | .cons k v rest => "\x7b " ++ k ++ ": " ++ inspectVal v ++ inspectRest rest ++ " \x7d"
/-- Remaining fields of an object being inspected. -/
def inspectRest : Fields → String
  | .nil => ""
  | .cons k v rest => ", " ++ k ++ ": " ++ inspectVal v ++ inspectRest rest
end

/-- `type Context = { name: string; color?: KEYWORD }`. -/
structure Context where
  name : String
  color : Option String
deriving Repr, DecidableEq

/-- `type Level = 'error' | 'success' | 'warning' | 'debug' | 'info'`. -/
inductive Level where
  | error | success | warning | debug | info
deriving Repr, DecidableEq

/-- The lowercase name of a level (the TS string-union member itself). -/
def levelStr : Level → String
  | .error => "error"
  | .success => "success"
  | .warning => "warning"
  | .debug => "debug"
  | .info => "info"

/-- The cloud-logging config blob (`clConfig: any`): the fields the code
reads. A field holds a string or is absent; JS truthiness of a string field
is `truthyStr`. -/
structure CLConfig where
  projectId : Option String
  saKeyPath : Option String
  logName : Option String
deriving Repr, DecidableEq

/-- JS truthiness of an optional string (absent and `""` are falsy). -/
def truthyStr : Option String → Bool
  | none => false
  | some s => s != ""

/-- A `Logger` instance: its `context`, its `store` flag, and either a
`clConfig` (root logger, `parentLogger === null`) or a parent
(`createSubLogger` never passes a `clConfig`). -/
inductive Logger where
  | root (context : Context) (store : Bool) (clConfig : Option CLConfig)
  | child (context : Context) (store : Bool) (parent : Logger)
deriving Repr, DecidableEq

/-- `this.context`. -/
def Logger.context : Logger → Context
  | .root ctx _ _ => ctx
  | .child ctx _ _ => ctx

/-- `this.store`. -/
def Logger.store : Logger → Bool
  | .root _ s _ => s
  | .child _ s _ => s

/-- `createSubLogger(context, color, store = true)`: a new logger whose
`parentLogger` is the receiver and whose `clConfig` is left undefined. -/
def Logger.createSubLogger (l : Logger) (context : String) (color : Option String)
    (store : Bool) : Logger :=
  .child ⟨context, color⟩ store l

/-- Process-wide configuration and process topology read by `log`:
`envOption.quiet`, `envOption.verbose`, `envOption.withLogTime`,
`process.env.NODE_ENV === 'production'`, `cluster.isPrimary`,
`cluster.worker.id`, plus the clock: `now` is the value captured by
`new Date()` at root dispatch and `timeOf` models
`dateFormat(timestamp, 'HH:mm:ss')`. -/
structure Env where
  quiet : Bool
  verbose : Bool
  withLogTime : Bool
  isProduction : Bool
  isPrimary : Bool
  workerId : Nat
  now : Nat
  timeOf : Nat → String

/-- One invocation of `this.writeCloudLogging(level, log, timestamp, data)`,
recording the receiver state it closes over (`this.context`,
`this.clConfig`) and its arguments. -/
structure SinkCall where
  selfCtx : Context
  clConfig : Option CLConfig
  level : Level
  message : SText
  time : Nat
  data : Option Fields
deriving DecidableEq

/-- A console item: the formatted log line (`console.log(log)`) or the raw
data dump (`console.log(data)` for errors). -/
inductive ConsoleItem where
  | line (t : SText)
  | rawData (d : Fields)
deriving DecidableEq

/-- The observable effect of one emission: the `console.log` calls in order,
and the `writeCloudLogging` invocations. -/
structure Output where
  console : List ConsoleItem
  sinkCalls : List SinkCall
deriving DecidableEq

def Output.empty : Output := ⟨[], []⟩

/-- The level tag `l` with its chalk styling (`'ERR '`/`WARN`/`DONE`/`VERB`/
`INFO`, important errors and successes inverted). -/
def levelTag (level : Level) (important : Bool) : SText :=
  match level with
  | .error => if important then .styled "bgRed.white" (.plain "ERR ") else .styled "red" (.plain "ERR ")
  | .warning => .styled "yellow" (.plain "WARN")
  | .success => if important then .styled "bgGreen.white" (.plain "DONE") else .styled "green" (.plain "DONE")
  | .debug => .styled "gray" (.plain "VERB")
  | .info => .styled "blue" (.plain "INFO")

/-- The message part `m` with its per-level chalk coloring. -/
def msgText (level : Level) (message : String) : SText :=
  match level with
  | .error => .styled "red" (.plain message)
  | .warning => .styled "yellow" (.plain message)
  | .success => .styled "green" (.plain message)
  | .debug => .styled "gray" (.plain message)
  | .info => .plain message

/-- One rendered context segment:
`d.color ? chalk.rgb(...convertColor.keyword.rgb(d.color))(d.name) : chalk.white(d.name)`. -/
def renderContext (d : Context) : SText :=
  match d.color with
  | some c => .styled ("rgb." ++ c) (.plain d.name)
  | none => .styled "white" (.plain d.name)

/-- `contexts.join(' ')`. -/
def joinSpace : List SText → SText
  | [] => .plain ""
  | [x] => x
  | x :: y :: rest => .app x (.app (.plain " ") (joinSpace (y :: rest)))

/-- The composed line `log` of the root branch of `Logger.log` (the value
built by the template literal and the optional time prefix; this is the
value later handed to `writeCloudLogging`). -/
def composeLine (env : Env) (ctx : Context) (level : Level) (message : String)
    (important : Bool) (subContexts : List Context) : SText :=
  let worker := if env.isPrimary then "*" else toString env.workerId
  let l := levelTag level important
  let contexts := (ctx :: subContexts).map renderContext
  let m := msgText level message
  let log0 := SText.app l (SText.app (SText.plain (" " ++ worker ++ "\t["))
      (SText.app (joinSpace contexts) (SText.app (SText.plain "]\t") m)))
  if env.withLogTime then
    SText.app (SText.styled "gray" (SText.plain (env.timeOf env.now)))
      (SText.app (SText.plain " ") log0)
  else log0

/-- The root branch of `Logger.log`: formatting, console emission
(`console.log(important ? chalk.bold(log) : log)`, plus the raw data dump for
errors) and the `writeCloudLogging` call. `store` is in scope here but —
exactly as in the source — never read. -/
def rootDispatch (env : Env) (ctx : Context) (clConfig : Option CLConfig)
    (level : Level) (message : String) (data : Option Fields) (important : Bool)
    (subContexts : List Context) (_store : Bool) : Output :=
  let log1 := composeLine env ctx level message important subContexts
  let consoleLine := if important then SText.styled "bold" log1 else log1
  if level == Level.error && data.isSome then
    { console := [.line consoleLine, .rawData (data.getD .nil)],
      sinkCalls := [⟨ctx, clConfig, level, log1, env.now, data⟩] }
  else
    { console := [.line consoleLine],
      sinkCalls := [⟨ctx, clConfig, level, log1, env.now, none⟩] }

/-- `private log(level, message, data?, important = false, subContexts = [],
store = true)`: the quiet gate, the `store` reduction, and delegation to the
parent (prepending `this.context` to `subContexts`) or root dispatch. -/
def Logger.log (env : Env) : Logger → Level → String → Option Fields → Bool →
    List Context → Bool → Output
  | l, level, message, data, important, subContexts, store =>
    if env.quiet then Output.empty
    else
      let store1 := if !l.store then false else store
      let store2 := if level == Level.debug then false else store1
      match l with
      | .child ctx _ parent =>
          Logger.log env parent level message data important (ctx :: subContexts) store2
      | .root ctx _ clConfig =>
          rootDispatch env ctx clConfig level message data important subContexts store2

/-- `${this.context.color}` in the label: an absent color stringifies to
`"undefined"`. -/
def colorLabel : Option String → String
  | some c => c
  | none => "undefined"

/-- The entry actually written to the sink by `log.write(entry)`. -/
structure SinkEntry where
  logName : String
  severity : String
  resourceType : String
  timestamp : Nat
  labelName : String
  labelColor : String
  message : String
deriving Repr, DecidableEq

/-- `private async writeCloudLogging(level, message, time, data?)`: skip when
no config or missing credentials, map `success` to `info`, strip the ANSI
styling, attach metadata from `this` (the root logger), and append the
inspected data after a newline when present. Returns the written entry, or
`none` when the write is skipped. -/
def writeCloudLogging (c : SinkCall) : Option SinkEntry :=
  match c.clConfig with
  | none => none
  | some cfg =>
    if !truthyStr cfg.projectId || !truthyStr cfg.saKeyPath then none
    else
      let lv := if c.level == Level.success then Level.info else c.level
      let logName := cfg.logName.getD "cherrypick"
      let logMessage := c.message.strip
      let dataString := match c.data with
        | some d => "\n" ++ inspectFields d
        | none => ""
      some { logName := logName,
             severity := (levelStr lv).toUpper,
             resourceType := "global",
             timestamp := c.time,
             labelName := c.selfCtx.name,
             labelColor := colorLabel c.selfCtx.color,
             message := logMessage ++ dataString }

/-- The sink writes actually performed for an emission. -/
def Output.sinkWrites (o : Output) : List SinkEntry :=
  o.sinkCalls.filterMap writeCloudLogging

/-- The formatted console lines of an emission (excluding raw data dumps). -/
def Output.lines (o : Output) : List SText :=
  o.console.filterMap fun i => match i with
    | .line t => some t
    | .rawData _ => none

/-- The raw data dumps printed to the console. -/
def Output.rawDatas (o : Output) : List Fields :=
  o.console.filterMap fun i => match i with
    | .line _ => none
    | .rawData d => some d

/-- `public info(message, data?, important = false)`. -/
def Logger.info (env : Env) (l : Logger) (message : String) (data : Option Fields)
    (important : Bool) : Output :=
  l.log env .info message data important [] true

/-- `public warn(message, data?, important = false)`. -/
def Logger.warn (env : Env) (l : Logger) (message : String) (data : Option Fields)
    (important : Bool) : Output :=
  l.log env .warning message data important [] true

/-- `public succ(message, data?, important = false)`. -/
def Logger.succ (env : Env) (l : Logger) (message : String) (data : Option Fields)
    (important : Bool) : Output :=
  l.log env .success message data important [] true

/-- `public debug(message, data?, important = false)`: gated on
`process.env.NODE_ENV !== 'production' || envOption.verbose`. -/
def Logger.debug (env : Env) (l : Logger) (message : String) (data : Option Fields)
    (important : Bool) : Output :=
  if !env.isProduction || env.verbose then
    l.log env .debug message data important [] true
  else Output.empty

/-- The argument `x: string | Error` of `error` (plus the defensively handled
plain-object case). -/
inductive ErrArg where
  | str (s : String)
  | errObj (name message : String)
  | plainObj (message : Option JsVal) (name : Option JsVal)
deriving DecidableEq

/-- A heap of JS objects, addressed by position; models object identity for
the caller-supplied `data` bag. -/
abbrev Heap := List Fields

/-- `public error(x, data?, important = false)`: for an `Error` instance the
data bag is defaulted to a fresh `{}` if absent and then mutated in place
(`data.e = x`); otherwise `data` is passed through untouched. Returns the
heap after the call together with the emission output. -/
def Logger.error (env : Env) (l : Logger) (x : ErrArg) (data : Option Nat)
    (important : Bool) (heap : Heap) : Heap × Output :=
  match x with
  | .errObj n m =>
      let alloc : Nat × Heap := match data with
        | some r => (r, heap)
        | none => (List.length heap, heap ++ [Fields.nil])
      let r := alloc.1
      let heap1 := alloc.2
      let heap2 := heap1.set r ((heap1.getD r Fields.nil).set "e" (.errV n m))
      (heap2, l.log env .error (errToString n m) (some (heap2.getD r Fields.nil)) important [] true)
  | .plainObj msg nm =>
      let s := match msg with
        | some v => jsToString v
        | none => match nm with
          | some v => jsToString v
          | none => "[object Object]"
      (heap, l.log env .error s (data.map fun r => heap.getD r Fields.nil) important [] true)
  | .str s =>
      (heap, l.log env .error s (data.map fun r => heap.getD r Fields.nil) important [] true)

/-! ## Derived notions used by the specification claims -/

/-- The context chain of a logger, rootmost first, the logger's own context
last. -/
def chain : Logger → List Context
  | .root ctx _ _ => [ctx]
  | .child ctx _ p => chain p ++ [ctx]

/-- The context of the root ancestor (the logger that performs dispatch). -/
def rootCtxOf : Logger → Context
  | .root ctx _ _ => ctx
  | .child _ _ p => rootCtxOf p

/-- The `clConfig` of the root ancestor. -/
def rootCfgOf : Logger → Option CLConfig
  | .root _ _ cfg => cfg
  | .child _ _ p => rootCfgOf p

/-- The context chain without the root's own context. -/
def chainTail : Logger → List Context
  | .root _ _ _ => []
  | .child ctx _ p => chainTail p ++ [ctx]

/-- The worker prefix of a console line. -/
def workerStr (env : Env) : String :=
  if env.isPrimary then "*" else toString env.workerId

/-- The plain text of the level tag. -/
def levelTagStr : Level → String
  | .error => "ERR "
  | .warning => "WARN"
  | .success => "DONE"
  | .debug => "VERB"
  | .info => "INFO"

/-- `names.join(' ')` on plain strings. -/
def joinNames : List String → String
  | [] => ""
  | [x] => x
  | x :: y :: rest => x ++ " " ++ joinNames (y :: rest)

/-- `small` occurs as a contiguous substring of `big`. -/
def containsStr (big small : String) : Prop :=
  small.data <:+: big.data

instance (big small : String) : Decidable (containsStr big small) :=
  inferInstanceAs (Decidable (List.IsInfix _ _))

/-! ## Structural lemmas -/

theorem chain_eq (l : Logger) : chain l = rootCtxOf l :: chainTail l := by
  induction l with
  | root ctx s cfg => rfl
  | child ctx s p ih => simp [chain, rootCtxOf, chainTail, ih]

theorem levelTag_strip (level : Level) (important : Bool) :
    (levelTag level important).strip = levelTagStr level := by
  cases level <;> cases important <;> rfl

theorem msgText_strip (level : Level) (message : String) :
    (msgText level message).strip = message := by
  cases level <;> rfl

theorem renderContext_strip (d : Context) : (renderContext d).strip = d.name := by
  cases d with
  | mk name color => cases color <;> rfl

theorem joinSpace_render_strip (cs : List Context) :
    (joinSpace (cs.map renderContext)).strip = joinNames (cs.map Context.name) := by
  match cs with
  | [] => rfl
  | [c] => simp [joinSpace, joinNames, renderContext_strip]
  | c :: c2 :: rest =>
      have ih := joinSpace_render_strip (c2 :: rest)
      simp [joinSpace, joinNames, SText.strip, renderContext_strip] at ih ⊢
      simp [ih, String.append_assoc]

theorem composeLine_strip (env : Env) (ctx : Context) (level : Level)
    (message : String) (important : Bool) (subContexts : List Context) :
    (composeLine env ctx level message important subContexts).strip =
      (if env.withLogTime then env.timeOf env.now ++ " " else "") ++
      levelTagStr level ++ " " ++ workerStr env ++ "\t[" ++
      joinNames ((ctx :: subContexts).map Context.name) ++ "]\t" ++ message := by
  have hj := joinSpace_render_strip (ctx :: subContexts)
  simp only [List.map_cons] at hj
  cases hw : env.withLogTime <;>
    simp [composeLine, hw, SText.strip, levelTag_strip, msgText_strip, hj,
      workerStr, String.append_assoc]

/-- The store argument of `rootDispatch` has no effect: the source computes
the effective store but never reads it at dispatch. -/
theorem rootDispatch_store_irrelevant (env : Env) (ctx : Context)
    (cfg : Option CLConfig) (level : Level) (message : String)
    (data : Option Fields) (important : Bool) (subContexts : List Context)
    (s1 s2 : Bool) :
    rootDispatch env ctx cfg level message data important subContexts s1 =
      rootDispatch env ctx cfg level message data important subContexts s2 := rfl

/-- Any `log` call below the root reduces to the single root dispatch, with
the contexts of the traversed loggers accumulated in front (rootmost
first). -/
theorem log_eq_rootDispatch (env : Env) (h : env.quiet = false) (l : Logger) :
    ∀ (level : Level) (message : String) (data : Option Fields)
      (important : Bool) (subContexts : List Context) (store : Bool),
    Logger.log env l level message data important subContexts store =
      rootDispatch env (rootCtxOf l) (rootCfgOf l) level message data important
        (chainTail l ++ subContexts) true := by
  induction l with
  | root ctx s cfg =>
      intro level message data important subContexts store
      rw [Logger.log]
      simp [h, rootCtxOf, rootCfgOf, chainTail,
        rootDispatch_store_irrelevant env ctx cfg level message data important
          subContexts _ true]
  | child ctx s p ih =>
      intro level message data important subContexts store
      rw [Logger.log]
      simp only [h, Bool.false_eq_true, if_false]
      rw [ih]
      simp [rootCtxOf, chainTail, rootCfgOf]

theorem strip_boldOpt (important : Bool) (t : SText) :
    (if important then SText.styled "bold" t else t).strip = t.strip := by
  cases important <;> rfl

theorem rootDispatch_lines (env : Env) (ctx : Context) (cfg : Option CLConfig)
    (level : Level) (message : String) (data : Option Fields) (important : Bool)
    (subContexts : List Context) (store : Bool) :
    (rootDispatch env ctx cfg level message data important subContexts store).lines =
      [if important then SText.styled "bold" (composeLine env ctx level message important subContexts)
       else composeLine env ctx level message important subContexts] := by
  cases hc : (level == Level.error && data.isSome) <;>
    simp [rootDispatch, hc, Output.lines]

theorem rootDispatch_sinkCalls (env : Env) (ctx : Context) (cfg : Option CLConfig)
    (level : Level) (message : String) (data : Option Fields) (important : Bool)
    (subContexts : List Context) (store : Bool) :
    (rootDispatch env ctx cfg level message data important subContexts store).sinkCalls =
      [⟨ctx, cfg, level, composeLine env ctx level message important subContexts,
        env.now, if level == Level.error && data.isSome then data else none⟩] := by
  cases hc : (level == Level.error && data.isSome) <;>
    simp [rootDispatch, hc]

theorem rootDispatch_rawDatas (env : Env) (ctx : Context) (cfg : Option CLConfig)
    (level : Level) (message : String) (data : Option Fields) (important : Bool)
    (subContexts : List Context) (store : Bool) :
    (rootDispatch env ctx cfg level message data important subContexts store).rawDatas =
      if level == Level.error && data.isSome then [data.getD .nil] else [] := by
  cases hc : (level == Level.error && data.isSome) <;>
    simp [rootDispatch, hc, Output.rawDatas]

/-- An infix survives extension on both sides. -/
theorem infix_extend {α : Type} {l m : List α} (pre post : List α)
    (h : l <:+: m) : l <:+: pre ++ m ++ post := by
  obtain ⟨s, t, hst⟩ := h
  exact ⟨pre ++ s, t ++ post, by rw [← hst]; simp [List.append_assoc]⟩

theorem joinNames_contains :
    ∀ (names : List String) (nm : String), nm ∈ names →
      nm.data <:+: (joinNames names).data
  | [], nm, hm => by cases hm
  | [x], nm, hm => by
      simp at hm; subst hm; exact List.infix_refl _
  | x :: y :: rest, nm, hm => by
      rcases List.mem_cons.mp hm with h1 | h2
      · subst h1
        simp only [joinNames, String.data_append]
        exact ⟨[], " ".data ++ (joinNames (y :: rest)).data,
          by simp [List.append_assoc]⟩
      · have ih := joinNames_contains (y :: rest) nm h2
        simp only [joinNames, String.data_append]
        obtain ⟨s, t, hst⟩ := ih
        exact ⟨x.data ++ " ".data ++ s, t, by rw [← hst]; simp [List.append_assoc]⟩

/-- The fields of the entry written by `writeCloudLogging`, whenever a write
is actually performed. -/
theorem writeCloudLogging_some (c : SinkCall) (e : SinkEntry)
    (h : writeCloudLogging c = some e) :
    e.severity = (levelStr (if c.level == Level.success then Level.info else c.level)).toUpper ∧
    e.resourceType = "global" ∧
    e.timestamp = c.time ∧
    e.labelName = c.selfCtx.name ∧
    e.labelColor = colorLabel c.selfCtx.color ∧
    e.message = c.message.strip ++
      (match c.data with | some d => "\n" ++ inspectFields d | none => "") := by
  unfold writeCloudLogging at h
  split at h
  · cases h
  · split at h
    · cases h
    · cases h
      exact ⟨rfl, rfl, rfl, rfl, rfl, rfl⟩

/-! ## A concrete scenario: root `A` (with sink credentials), child `B`,
grandchild `C` (`store = false`), used as the concrete input of several
claims. -/

def envStd : Env := ⟨false, false, false, false, true, 0, 42, fun _ => "00:00:00"⟩

def envQuiet : Env := ⟨true, false, false, false, true, 0, 42, fun _ => "00:00:00"⟩

def cfgStd : CLConfig := ⟨some "p", some "k", none⟩

def loggerA : Logger := .root ⟨"A", some "red"⟩ true (some cfgStd)

def loggerB : Logger := loggerA.createSubLogger "B" none true

def loggerC : Logger := loggerB.createSubLogger "C" (some "blue") false

theorem log_quiet (env : Env) (h : env.quiet = true) (l : Logger) (level : Level)
    (message : String) (data : Option Fields) (important : Bool)
    (subContexts : List Context) (store : Bool) :
    Logger.log env l level message data important subContexts store = Output.empty := by
  cases l <;> (rw [Logger.log]; simp [h])

/-- The sink writes of an emission are exactly the (at most one) result of
`writeCloudLogging` on the root logger's single sink call. -/
theorem log_sinkWrites_char (env : Env) (h : env.quiet = false) (l : Logger)
    (level : Level) (message : String) (data : Option Fields) (important : Bool) :
    (l.log env level message data important [] true).sinkWrites =
      (writeCloudLogging ⟨rootCtxOf l, rootCfgOf l, level,
        composeLine env (rootCtxOf l) level message important (chainTail l),
        env.now, if level == Level.error && data.isSome then data else none⟩).toList := by
  rw [log_eq_rootDispatch env h l]
  unfold Output.sinkWrites
  rw [rootDispatch_sinkCalls]
  cases hw : writeCloudLogging ⟨rootCtxOf l, rootCfgOf l, level,
      composeLine env (rootCtxOf l) level message important (chainTail l),
      env.now, if level == Level.error && data.isSome then data else none⟩ <;>
    simp_all [List.filterMap]

theorem containsStr_parts2 (pre mid a b nm : String) (h : nm.data <:+: mid.data) :
    containsStr (pre ++ mid ++ a ++ b) nm := by
  obtain ⟨s, t, hst⟩ := h
  refine ⟨pre.data ++ s, t ++ a.data ++ b.data, ?_⟩
  simp only [String.data_append, ← hst]
  simp [List.append_assoc]

theorem containsStr_last (pre b nm : String) (h : nm.data <:+: b.data) :
    containsStr (pre ++ b) nm := by
  obtain ⟨s, t, hst⟩ := h
  refine ⟨pre.data ++ s, t, ?_⟩
  simp only [String.data_append, ← hst]
  simp [List.append_assoc]

/-! ## The claims -/

/-- Claim C3: for every chain of nested child loggers, an emission at the
deepest child produces a console context label containing all the context
names of the chain, and console emission and sink forwarding are each
performed exactly once — at the root logger (the single sink call closes over
the root's context), never once per level. -/
theorem c3_dispatch_once_with_all_contexts (env : Env) (l : Logger)
    (level : Level) (message : String) (data : Option Fields) (important : Bool)
    (h : env.quiet = false) :
    (l.log env level message data important [] true).lines.length = 1 ∧
    (l.log env level message data important [] true).sinkCalls.length = 1 ∧
    (∀ c ∈ (l.log env level message data important [] true).sinkCalls,
      c.selfCtx = rootCtxOf l) ∧
    (∀ t ∈ (l.log env level message data important [] true).lines,
      ∀ ctx ∈ chain l, containsStr t.strip ctx.name) := by
  rw [log_eq_rootDispatch env h l]
  refine ⟨?_, ?_, ?_, ?_⟩
  · rw [rootDispatch_lines]; rfl
  · rw [rootDispatch_sinkCalls]; rfl
  · intro c hc
    rw [rootDispatch_sinkCalls] at hc
    simp at hc
    rw [hc]
  · intro t ht ctx hctx
    rw [rootDispatch_lines] at ht
    simp at ht
    rw [ht, strip_boldOpt, composeLine_strip]
    have hmem : ctx.name ∈ (rootCtxOf l :: chainTail l).map Context.name := by
      rw [← chain_eq]
      exact List.mem_map_of_mem _ hctx
    exact containsStr_parts2 _ _ _ _ _ (joinNames_contains _ _ hmem)

/-- Witness for C3 at the concrete A/B/C scenario. -/
theorem c3_dispatch_once_with_all_contexts_witness :
    envStd.quiet = false ∧
    ((loggerC.log envStd Level.info "x" none false [] true).lines.length = 1 ∧
     (loggerC.log envStd Level.info "x" none false [] true).sinkCalls.length = 1 ∧
     (∀ c ∈ (loggerC.log envStd Level.info "x" none false [] true).sinkCalls,
       c.selfCtx = rootCtxOf loggerC) ∧
     (∀ t ∈ (loggerC.log envStd Level.info "x" none false [] true).lines,
       ∀ ctx ∈ chain loggerC, containsStr t.strip ctx.name)) :=
  ⟨rfl, c3_dispatch_once_with_all_contexts envStd loggerC Level.info "x" none false rfl⟩

/-- Claim C4 as stated is false: in the scenario root `A`, child `B`,
grandchild `C`, the call `C.info("x")` renders the label `[A B C]` —
rootmost context first — not `[C B A]`. -/
theorem c4_counterexample :
    (loggerC.info envStd "x" none false).lines.map SText.strip =
      ["INFO *\t[A B C]\tx"] ∧
    ("INFO *\t[A B C]\tx" : String) ≠ "INFO *\t[C B A]\tx" := by
  constructor
  · rfl
  · decide

/-- Claim C4 (amended): the context chain rendered in the console label lists
the ROOT logger's context first, followed by each descendant down the
delegation chain, the immediate caller's (leafmost) context LAST; in the
scenario root `A` with child `B` with grandchild `C`, `C.info("x")` renders
the label `[A B C]`. Each delegation hop prepends its own context to the
accumulated sub-context list, so the root renders root-to-leaf order. -/
theorem c4_label_order_root_first (env : Env) (l : Logger) (level : Level)
    (message : String) (data : Option Fields) (important : Bool)
    (h : env.quiet = false) :
    (l.log env level message data important [] true).lines.map SText.strip =
      [(if env.withLogTime then env.timeOf env.now ++ " " else "") ++
       levelTagStr level ++ " " ++ workerStr env ++ "\t[" ++
       joinNames ((chain l).map Context.name) ++ "]\t" ++ message] := by
  rw [log_eq_rootDispatch env h l, rootDispatch_lines]
  simp [strip_boldOpt, composeLine_strip, chain_eq]

/-- Witness for C4 (amended) at the concrete A/B/C scenario. -/
theorem c4_label_order_root_first_witness :
    envStd.quiet = false ∧
    (loggerC.log envStd Level.info "x" none false [] true).lines.map SText.strip =
      [(if envStd.withLogTime then envStd.timeOf envStd.now ++ " " else "") ++
       levelTagStr Level.info ++ " " ++ workerStr envStd ++ "\t[" ++
       joinNames ((chain loggerC).map Context.name) ++ "]\t" ++ "x"] :=
  ⟨rfl, c4_label_order_root_first envStd loggerC Level.info "x" none false rfl⟩

/-- Claim C5: when the process-wide quiet flag is set, every emission method
(`error`, `warn`, `succ`, `debug`, `info`) on every logger, at any nesting
depth, produces zero console output and zero sink calls. -/
theorem c5_quiet_suppresses_everything (env : Env) (l : Logger)
    (message : String) (data : Option Fields) (important : Bool) (x : ErrArg)
    (dref : Option Nat) (heap : Heap) (h : env.quiet = true) :
    l.info env message data important = Output.empty ∧
    l.warn env message data important = Output.empty ∧
    l.succ env message data important = Output.empty ∧
    l.debug env message data important = Output.empty ∧
    (l.error env x dref important heap).2 = Output.empty := by
  refine ⟨log_quiet env h l _ _ _ _ _ _, log_quiet env h l _ _ _ _ _ _,
    log_quiet env h l _ _ _ _ _ _, ?_, ?_⟩
  · unfold Logger.debug
    split
    · exact log_quiet env h l _ _ _ _ _ _
    · rfl
  · cases x <;> simp [Logger.error, log_quiet env h l]

/-- Witness for C5 at a concrete quiet environment and the scenario chain. -/
theorem c5_quiet_suppresses_everything_witness :
    envQuiet.quiet = true ∧
    (loggerC.info envQuiet "x" none false = Output.empty ∧
     loggerC.warn envQuiet "x" none false = Output.empty ∧
     loggerC.succ envQuiet "x" none false = Output.empty ∧
     loggerC.debug envQuiet "x" none false = Output.empty ∧
     (loggerC.error envQuiet (.str "x") none false []).2 = Output.empty) :=
  ⟨rfl, c5_quiet_suppresses_everything envQuiet loggerC "x" none false
    (.str "x") none [] rfl⟩

/-- Claim C6 as stated is false: the sink labels carry the ROOT logger's
context, not the leafmost one. At the A/B/C scenario, `C.info("x")` performs
a sink write labelled with name `"A"`, while the leafmost context (the logger
the method was called on) is named `"C"`. -/
theorem c6_counterexample :
    ((loggerC.info envStd "x" none false).sinkWrites).map SinkEntry.labelName = ["A"] ∧
    (Logger.context loggerC).name = "C" ∧
    ("A" : String) ≠ "C" := by
  refine ⟨rfl, rfl, by decide⟩

/-- Claim C6 (amended): every sink write attaches metadata consisting of the
upper-cased severity, the generic resource descriptor `"global"`, the event
timestamp, and labels carrying the name and color tag of the ROOT logger's
context (the logger that performs root dispatch), an absent color rendering
as `"undefined"`. -/
theorem c6_sink_metadata (env : Env) (l : Logger) (level : Level)
    (message : String) (data : Option Fields) (important : Bool)
    (h : env.quiet = false) :
    ∀ e ∈ (l.log env level message data important [] true).sinkWrites,
      e.severity = (levelStr (if level == Level.success then Level.info else level)).toUpper ∧
      e.resourceType = "global" ∧
      e.timestamp = env.now ∧
      e.labelName = (rootCtxOf l).name ∧
      e.labelColor = colorLabel (rootCtxOf l).color := by
  intro e he
  rw [log_sinkWrites_char env h l] at he
  simp only [Option.mem_toList, Option.mem_def] at he
  have hs := writeCloudLogging_some _ _ he
  exact ⟨hs.1, hs.2.1, hs.2.2.1, hs.2.2.2.1, hs.2.2.2.2.1⟩

/-- Witness for C6 (amended) at the concrete A/B/C scenario. -/
theorem c6_sink_metadata_witness :
    envStd.quiet = false ∧
    (∀ e ∈ (loggerC.log envStd Level.info "x" none false [] true).sinkWrites,
      e.severity = (levelStr (if Level.info == Level.success then Level.info else Level.info)).toUpper ∧
      e.resourceType = "global" ∧
      e.timestamp = envStd.now ∧
      e.labelName = (rootCtxOf loggerC).name ∧
      e.labelColor = colorLabel (rootCtxOf loggerC).color) :=
  ⟨rfl, c6_sink_metadata envStd loggerC Level.info "x" none false rfl⟩

/-- Claim C7 as stated is false: structured data supplied with a non-error
emission is NOT forwarded to the sink. At the scenario root `A` (credentials
present), `info("m", {k:"v"})` performs a sink write whose message body is
the bare console line, with no serialized data appended. -/
theorem c7_counterexample :
    ((loggerA.info envStd "m" (some (Fields.cons "k" (.str "v") .nil)) false).sinkWrites).map
        SinkEntry.message = ["INFO *\t[A]\tm"] ∧
    ("INFO *\t[A]\tm" : String) ≠
      "INFO *\t[A]\tm" ++ "\n" ++ inspectFields (Fields.cons "k" (.str "v") .nil) := by
  refine ⟨rfl, by decide⟩

/-- Claim C7 (amended): only error-level emissions forward their structured
data. When a sink write occurs for an error-level emission with supplied
data, the data is serialized (`util.inspect`, fully expanded) and appended
after a newline to the message body; for every other level the sink write
carries the bare (ANSI-stripped) console line, the supplied data being
dropped before `writeCloudLogging`. -/
theorem c7_data_appended_only_for_error (env : Env) (l : Logger) (level : Level)
    (message : String) (d : Fields) (important : Bool) (h : env.quiet = false) :
    (level = Level.error →
      ∀ e ∈ (l.log env level message (some d) important [] true).sinkWrites,
        e.message =
          (composeLine env (rootCtxOf l) level message important (chainTail l)).strip ++
            "\n" ++ inspectFields d) ∧
    (level ≠ Level.error →
      ∀ e ∈ (l.log env level message (some d) important [] true).sinkWrites,
        e.message =
          (composeLine env (rootCtxOf l) level message important (chainTail l)).strip) := by
  constructor
  · intro hlv e he
    subst hlv
    rw [log_sinkWrites_char env h l] at he
    simp only [Option.mem_toList, Option.mem_def] at he
    have hs := (writeCloudLogging_some _ _ he).2.2.2.2.2
    simp only [Option.isSome_some, Bool.and_true, beq_self_eq_true] at hs
    simp only [if_pos] at hs
    rw [hs]
    simp [String.append_assoc]
  · intro hlv e he
    rw [log_sinkWrites_char env h l] at he
    simp only [Option.mem_toList, Option.mem_def] at he
    have hs := (writeCloudLogging_some _ _ he).2.2.2.2.2
    have hbeq : (level == Level.error) = false := by
      cases level <;> simp_all
    simp only [hbeq, Bool.false_and, Bool.false_eq_true, if_false] at hs
    rw [hs]
    simp

/-- Witness for C7 (amended): an error emission with data at root `A`. -/
theorem c7_data_appended_only_for_error_witness :
    envStd.quiet = false ∧
    ((Level.error = Level.error →
      ∀ e ∈ (loggerA.log envStd Level.error "m" (some (Fields.cons "k" (.str "v") .nil)) false [] true).sinkWrites,
        e.message =
          (composeLine envStd (rootCtxOf loggerA) Level.error "m" false (chainTail loggerA)).strip ++
            "\n" ++ inspectFields (Fields.cons "k" (.str "v") .nil)) ∧
     (Level.error ≠ Level.error →
      ∀ e ∈ (loggerA.log envStd Level.error "m" (some (Fields.cons "k" (.str "v") .nil)) false [] true).sinkWrites,
        e.message =
          (composeLine envStd (rootCtxOf loggerA) Level.error "m" false (chainTail loggerA)).strip)) :=
  ⟨rfl, c7_data_appended_only_for_error envStd loggerA Level.error "m"
    (Fields.cons "k" (.str "v") .nil) false rfl⟩

/-- Claim C8: every success-level event forwarded to the sink carries
severity `"INFO"`, never `"SUCCESS"`; every other level maps to its own
upper-cased name as severity. -/
theorem c8_success_maps_to_info (env : Env) (l : Logger) (level : Level)
    (message : String) (data : Option Fields) (important : Bool)
    (h : env.quiet = false) :
    ∀ e ∈ (l.log env level message data important [] true).sinkWrites,
      (level = Level.success → e.severity = "INFO") ∧
      (level ≠ Level.success → e.severity = (levelStr level).toUpper) ∧
      e.severity ≠ "SUCCESS" := by
  intro e he
  rw [log_sinkWrites_char env h l] at he
  simp only [Option.mem_toList, Option.mem_def] at he
  have hs := (writeCloudLogging_some _ _ he).1
  cases level with
  | success =>
      have hsev : e.severity = "INFO" := by
        simpa [levelStr, String.toUpper, String.map_eq] using hs
      exact ⟨fun _ => hsev, fun hne => absurd rfl hne, (by rw [hsev]; decide)⟩
  | error =>
      have hsev : e.severity = "ERROR" := by
        simpa [levelStr, String.toUpper, String.map_eq] using hs
      exact ⟨fun hh => (by cases hh),
        fun _ => (by rw [hsev]; simp [levelStr, String.toUpper, String.map_eq]),
        (by rw [hsev]; decide)⟩
  | warning =>
      have hsev : e.severity = "WARNING" := by
        simpa [levelStr, String.toUpper, String.map_eq] using hs
      exact ⟨fun hh => (by cases hh),
        fun _ => (by rw [hsev]; simp [levelStr, String.toUpper, String.map_eq]),
        (by rw [hsev]; decide)⟩
  | debug =>
      have hsev : e.severity = "DEBUG" := by
        simpa [levelStr, String.toUpper, String.map_eq] using hs
      exact ⟨fun hh => (by cases hh),
        fun _ => (by rw [hsev]; simp [levelStr, String.toUpper, String.map_eq]),
        (by rw [hsev]; decide)⟩
  | info =>
      have hsev : e.severity = "INFO" := by
        simpa [levelStr, String.toUpper, String.map_eq] using hs
      exact ⟨fun hh => (by cases hh),
        fun _ => (by rw [hsev]; simp [levelStr, String.toUpper, String.map_eq]),
        (by rw [hsev]; decide)⟩

/-- Witness for C8: a success emission through the A/B/C chain. -/
theorem c8_success_maps_to_info_witness :
    envStd.quiet = false ∧
    (∀ e ∈ (loggerC.log envStd Level.success "x" none false [] true).sinkWrites,
      (Level.success = Level.success → e.severity = "INFO") ∧
      (Level.success ≠ Level.success → e.severity = (levelStr Level.success).toUpper) ∧
      e.severity ≠ "SUCCESS") :=
  ⟨rfl, c8_success_maps_to_info envStd loggerC Level.success "x" none false rfl⟩

theorem getD_append_length {α : Type} (l : List α) (x d : α) :
    (l ++ [x]).getD l.length d = x := by
  induction l with
  | nil => rfl
  | cons y rest ih => simp [List.getD]

theorem set_append_length {α : Type} (l : List α) (x y : α) :
    (l ++ [x]).set l.length y = l ++ [y] := by
  induction l with
  | nil => rfl
  | cons z rest ih => simp [List.set, ih]

theorem Fields.lookup_set_same :
    ∀ (f : Fields) (k : String) (v : JsVal), (f.set k v).lookup k = some v
  | .nil, k, v => by simp [Fields.set, Fields.lookup]
  | .cons k2 w rest, k, v => by
      by_cases hk : k2 = k <;>
        simp [Fields.set, Fields.lookup, hk, Fields.lookup_set_same rest k v]

theorem Fields.lookup_set_ne :
    ∀ (f : Fields) (k k2 : String) (v : JsVal), k2 ≠ k →
      (f.set k v).lookup k2 = f.lookup k2
  | .nil, k, k2, v, h => by
      simp [Fields.set, Fields.lookup, Ne.symm h]
  | .cons k3 w rest, k, k2, v, h => by
      by_cases h3 : k3 = k
      · subst h3
        simp [Fields.set, Fields.lookup, h, Ne.symm h]
      · by_cases h32 : k3 = k2 <;>
          simp [Fields.set, Fields.lookup, h, h3, h32,
            Fields.lookup_set_ne rest k k2 v h]

/-- Claim C9: `error("boom")` and `error(new Error("boom"))` both produce a
console line containing "boom"; only the Error-object form attaches a
populated data bag containing the original error under the key `"e"` (the
string form leaves the data argument — here, the heap — unchanged and prints
no data bag). -/
theorem c9_error_string_vs_error_object (env : Env) (l : Logger)
    (important : Bool) (heap : Heap) (h : env.quiet = false) :
    (∃ t, ((l.error env (.str "boom") none important heap).2).lines = [t] ∧
      containsStr t.strip "boom") ∧
    (l.error env (.str "boom") none important heap).1 = heap ∧
    ((l.error env (.str "boom") none important heap).2).rawDatas = [] ∧
    (∃ t bag, ((l.error env (.errObj "Error" "boom") none important heap).2).lines = [t] ∧
      containsStr t.strip "boom" ∧
      ((l.error env (.errObj "Error" "boom") none important heap).2).rawDatas = [bag] ∧
      bag.lookup "e" = some (.errV "Error" "boom")) := by
  have herr : l.error env (.errObj "Error" "boom") none important heap =
      (heap ++ [Fields.cons "e" (.errV "Error" "boom") .nil],
       l.log env .error "Error: boom"
         (some (Fields.cons "e" (.errV "Error" "boom") .nil)) important [] true) := by
    simp [Logger.error, Fields.set, errToString, getD_append_length, set_append_length]
  refine ⟨?_, rfl, ?_, ?_⟩
  · rw [show (l.error env (.str "boom") none important heap).2 =
        l.log env .error "boom" none important [] true from rfl]
    rw [log_eq_rootDispatch env h l, rootDispatch_lines]
    refine ⟨_, rfl, ?_⟩
    rw [strip_boldOpt, composeLine_strip]
    exact containsStr_last _ _ _ (List.infix_refl _)
  · rw [show (l.error env (.str "boom") none important heap).2 =
        l.log env .error "boom" none important [] true from rfl]
    rw [log_eq_rootDispatch env h l, rootDispatch_rawDatas]
    rfl
  · have h2 : (l.error env (.errObj "Error" "boom") none important heap).2 =
        l.log env .error "Error: boom"
          (some (Fields.cons "e" (.errV "Error" "boom") .nil)) important [] true := by
      rw [herr]
    rw [h2, log_eq_rootDispatch env h l, rootDispatch_lines, rootDispatch_rawDatas]
    refine ⟨_, Fields.cons "e" (.errV "Error" "boom") .nil, rfl, ?_, ?_, ?_⟩
    · rw [strip_boldOpt, composeLine_strip]
      exact containsStr_last _ _ _ (by decide)
    · rfl
    · simp [Fields.lookup]

/-- Witness for C9 at the scenario root logger and an empty heap. -/
theorem c9_error_string_vs_error_object_witness :
    envStd.quiet = false ∧
    ((∃ t, ((loggerA.error envStd (.str "boom") none false []).2).lines = [t] ∧
        containsStr t.strip "boom") ∧
      (loggerA.error envStd (.str "boom") none false []).1 = [] ∧
      ((loggerA.error envStd (.str "boom") none false []).2).rawDatas = [] ∧
      (∃ t bag, ((loggerA.error envStd (.errObj "Error" "boom") none false []).2).lines = [t] ∧
        containsStr t.strip "boom" ∧
        ((loggerA.error envStd (.errObj "Error" "boom") none false []).2).rawDatas = [bag] ∧
        bag.lookup "e" = some (.errV "Error" "boom"))) :=
  ⟨rfl, c9_error_string_vs_error_object envStd loggerA false [] rfl⟩

/-- Claim C10: when `error(x, data)` is called with an Error instance and a
caller-supplied data object, the caller's object is mutated in place — after
the call the same heap cell holds the Error under the key `"e"` in addition
to its prior entries, every other heap cell being untouched; when `x` is a
string or a non-Error plain object the heap is left unmodified. -/
theorem c10_error_frame_effect (env : Env) (l : Logger) (important : Bool)
    (heap : Heap) (r : Nat) (fields : Fields) (n m s : String)
    (mo no : Option JsVal) (hr : heap[r]? = some fields) :
    ((l.error env (.errObj n m) (some r) important heap).1)[r]? =
      some (fields.set "e" (.errV n m)) ∧
    (∀ j, j ≠ r →
      ((l.error env (.errObj n m) (some r) important heap).1)[j]? = heap[j]?) ∧
    (fields.set "e" (.errV n m)).lookup "e" = some (.errV n m) ∧
    (∀ k, k ≠ "e" → (fields.set "e" (.errV n m)).lookup k = fields.lookup k) ∧
    (l.error env (.str s) (some r) important heap).1 = heap ∧
    (l.error env (.plainObj mo no) (some r) important heap).1 = heap := by
  have h1 : (l.error env (.errObj n m) (some r) important heap).1 =
      heap.set r (fields.set "e" (.errV n m)) := by
    simp [Logger.error, List.getD, hr]
  refine ⟨?_, ?_, Fields.lookup_set_same _ _ _,
    fun k hk => Fields.lookup_set_ne _ _ _ _ hk, rfl, rfl⟩
  · rw [h1]
    exact List.getElem?_set_self ((List.getElem?_eq_some_iff.mp hr).1)
  · intro j hj
    rw [h1]
    exact List.getElem?_set_ne (Ne.symm hj)

/-- Witness for C10: a one-cell heap holding `{k: "v"}`. -/
theorem c10_error_frame_effect_witness :
    ([Fields.cons "k" (.str "v") .nil] : Heap)[0]? =
      some (Fields.cons "k" (.str "v") .nil) ∧
    (((loggerA.error envStd (.errObj "Error" "boom") (some 0) false
        [Fields.cons "k" (.str "v") .nil]).1)[0]? =
      some ((Fields.cons "k" (.str "v") .nil).set "e" (.errV "Error" "boom")) ∧
    (∀ j, j ≠ 0 →
      ((loggerA.error envStd (.errObj "Error" "boom") (some 0) false
        [Fields.cons "k" (.str "v") .nil]).1)[j]? =
        ([Fields.cons "k" (.str "v") .nil] : Heap)[j]?) ∧
    ((Fields.cons "k" (.str "v") .nil).set "e" (.errV "Error" "boom")).lookup "e" =
      some (.errV "Error" "boom") ∧
    (∀ k, k ≠ "e" →
      ((Fields.cons "k" (.str "v") .nil).set "e" (.errV "Error" "boom")).lookup k =
        (Fields.cons "k" (.str "v") .nil).lookup k) ∧
    (loggerA.error envStd (.str "x") (some 0) false
      [Fields.cons "k" (.str "v") .nil]).1 = [Fields.cons "k" (.str "v") .nil] ∧
    (loggerA.error envStd (.plainObj none none) (some 0) false
      [Fields.cons "k" (.str "v") .nil]).1 = [Fields.cons "k" (.str "v") .nil]) :=
  ⟨rfl, c10_error_frame_effect envStd loggerA false [Fields.cons "k" (.str "v") .nil]
    0 (Fields.cons "k" (.str "v") .nil) "Error" "boom" "x" none none rfl⟩

/-- Claim C1 is contradicted by the code: the effective `store` flag is
computed down the delegation chain but never consulted at root dispatch
(`writeCloudLogging` is invoked unconditionally), so in the A/B/C scenario
with `C.store = false` and full credentials on root `A`, `C.info("x")`
still performs a sink write; the console line is emitted as always. This
theorem evaluates the code at that failing input. -/
theorem c1_store_false_sink_write_still_performed :
    Logger.store loggerC = false ∧
    (loggerC.info envStd "x" none false).lines.length = 1 ∧
    ((loggerC.info envStd "x" none false).sinkWrites).length = 1 :=
  ⟨rfl, rfl, rfl⟩

/-- Claim C2 is contradicted by the code: a debug emission that passes the
quiet and production/verbose gates reaches root dispatch with effective
store forced to false, yet `writeCloudLogging` is still invoked and — with
credentials attached — performs a sink write. This theorem evaluates the
code at that failing input (non-production, verbose unset, root `A` with
credentials). -/
theorem c2_debug_sink_write_still_performed :
    envStd.isProduction = false ∧ envStd.verbose = false ∧
    ((loggerA.debug envStd "d" none false).sinkCalls).map SinkCall.level =
      [Level.debug] ∧
    ((loggerA.debug envStd "d" none false).sinkWrites).length = 1 :=
  ⟨rfl, rfl, rfl, rfl⟩

end Rosekey
